import Mathlib

/-!
Verification development for the conversational-assistant pipeline of the
EMPLOYEE-TIMESHEETS-TRACKER repository.

The embedding models, as pure Lean functions over `List Char`:
  * the directive scanning done in `router.post('/chat')` of
    `src/routes/chatbot.js` — JavaScript `String.prototype.includes`,
    the regexes `/TOOL_CALL:\s*(\x7b[^\x7d]+\x7d)/` and
    `/ACTION_COMMAND:\s*(\x7b[^\x7d]+\x7d)/`, the global replace
    `/ACTION_COMMAND:\s*\x7b[^\x7d]+\x7d\s*/g` and `String.prototype.trim`;
  * `JSON.parse` (restricted to the JSON fragment that can actually occur in
    a captured payload: objects, arrays, strings without escape decoding,
    raw numeric lexemes, `true`, `false`, `null`) and `JSON.stringify`;
  * `executeTool` with its tool-result cache policy;
  * the per-turn orchestration of the `/chat` endpoint;
  * the browser-side `executeChatbotAction` allow-list gate
    (`ACTION_REGISTRY`);
  * the request deduplicator and the cache store of the `cache-manager`
    module, which is not part of the available sources and is therefore
    modelled from the specification where noted.

The whitespace class of the JavaScript regex `\s` is modelled by the common
ASCII whitespace characters; every concrete input used below only contains
plain spaces.
-/

/-- Characters of a string literal. -/
def sChars (s : String) : List Char := s.data

/-- The `\x7b` character (opening curly bracket). -/
def lbrace : Char := Char.ofNat 123

/-- The `\x7d` character (closing curly bracket). -/
def rbrace : Char := Char.ofNat 125

/-- Model of the JavaScript regex class `\s` (ASCII part). -/
def isWs (c : Char) : Bool :=
  c = ' ' || c = '\t' || c = '\n' || c = '\r' || c = Char.ofNat 11 || c = Char.ofNat 12

/-- Insignificant whitespace accepted by `JSON.parse` between tokens. -/
def isJsonWs (c : Char) : Bool :=
  c = ' ' || c = '\t' || c = '\n' || c = '\r'

/-- Prefix test on character lists, mirroring a character-by-character scan. -/
def isPre : List Char → List Char → Bool
  | [], _ => true
  | _ :: _, [] => false
  | a :: as, b :: bs => decide (a = b) && isPre as bs

/-- Model of `text.includes(pat)`: the pattern occurs somewhere in the text. -/
def containsSub (pat : List Char) : List Char → Bool
  | [] => pat.isEmpty
  | c :: r => isPre pat (c :: r) || containsSub pat r

/-- Model of matching `\s*(\x7b[^\x7d]+\x7d)` at the start of `s`: skip
whitespace greedily, require an opening brace, at least one non-brace
character, and a closing brace; return the captured group. -/
def matchPayload (s : List Char) : Option (List Char) :=
  match s.dropWhile isWs with
  | [] => none
  | c :: rest =>
    if c = lbrace then
      match rest.dropWhile (fun d => decide (d ≠ rbrace)) with
      | d :: _ =>
        if d = rbrace then
          if (rest.takeWhile (fun d => decide (d ≠ rbrace))).isEmpty then none
          else some (lbrace :: rest.takeWhile (fun d => decide (d ≠ rbrace)) ++ [rbrace])
        else none
      | [] => none
    else none

/-- Model of `text.match(/PAT:\s*(\x7b[^\x7d]+\x7d)/)` returning the first
captured payload: at each position, try the whole pattern; on failure move
one character to the right, exactly as the JavaScript engine does. -/
def matchFirst (pat : List Char) : List Char → Option (List Char)
  | [] => none
  | c :: r =>
    if isPre pat (c :: r) then
      match matchPayload ((c :: r).drop pat.length) with
      | some cap => some cap
      | none => matchFirst pat r
    else matchFirst pat r

/-- The `TOOL_CALL:` marker of the directive protocol. -/
def toolMarkerChars : List Char := sChars "TOOL_CALL:"

/-- The `ACTION_COMMAND:` marker of the directive protocol. -/
def actionMarkerChars : List Char := sChars "ACTION_COMMAND:"

/-- Model of matching the full pattern `ACTION_COMMAND:\s*\x7b[^\x7d]+\x7d\s*`
at the start of `s`, returning the remainder of the text after the match. -/
def matchActionAt (s : List Char) : Option (List Char) :=
  if isPre actionMarkerChars s then
    match (s.drop actionMarkerChars.length).dropWhile isWs with
    | [] => none
    | c :: rest =>
      if c = lbrace then
        let run := rest.takeWhile (fun d => decide (d ≠ rbrace))
        let rem := rest.dropWhile (fun d => decide (d ≠ rbrace))
        if run.isEmpty then none
        else
          match rem with
          | _ :: tail => some (tail.dropWhile isWs)
          | [] => none
      else none
  else none

/-- Fuelled worker for the global replace: scan left to right, removing every
match of the action-command pattern. -/
def stripActionGo : Nat → List Char → List Char
  | 0, s => s
  | _ + 1, [] => []
  | n + 1, c :: r =>
    match matchActionAt (c :: r) with
    | some rem => stripActionGo n rem
    | none => c :: stripActionGo n r

/-- Model of `text.replace(/ACTION_COMMAND:\s*\x7b[^\x7d]+\x7d\s*/g, '')`. -/
def stripActionAll (s : List Char) : List Char :=
  stripActionGo s.length s

/-- Model of `String.prototype.trim`. -/
def trimWs (s : List Char) : List Char :=
  ((s.dropWhile isWs).reverse.dropWhile isWs).reverse

/-- JSON values as produced by `JSON.parse`. String contents keep escape
sequences verbatim and numbers keep their raw lexeme; no directive payload in
this development contains either. -/
inductive JVal where
  | null : JVal
  | bool : Bool → JVal
  | num : List Char → JVal
  | str : List Char → JVal
  | arr : List JVal → JVal
  | obj : List (List Char × JVal) → JVal

/-- String body scanner: characters up to the closing quote, keeping a
backslash together with its following character verbatim. -/
def parseStringBody : List Char → Option (List Char × List Char)
  | [] => none
  | c :: r =>
    if c = '"' then some ([], r)
    else if c = '\\' then
      match r with
      | d :: r2 => (parseStringBody r2).map (fun p => (c :: d :: p.1, p.2))
      | [] => none
    else (parseStringBody r).map (fun p => (c :: p.1, p.2))

/-- Numeric lexeme: optional minus sign followed by at least one digit,
optionally a fractional part. -/
def parseNumLex (s : List Char) : Option (List Char × List Char) :=
  let core : List Char → Option (List Char × List Char) := fun t =>
    let ds := t.takeWhile Char.isDigit
    let rest := t.dropWhile Char.isDigit
    if ds.isEmpty then none
    else
      match rest with
      | '.' :: r2 =>
        let fs := r2.takeWhile Char.isDigit
        let rest2 := r2.dropWhile Char.isDigit
        if fs.isEmpty then none else some (ds ++ '.' :: fs, rest2)
      | _ => some (ds, rest)
  match s with
  | '-' :: t => (core t).map (fun p => ('-' :: p.1, p.2))
  | _ => core s

mutual

/-- Fuelled recursive-descent parser for one JSON value. -/
def parseVal : Nat → List Char → Option (JVal × List Char)
  | 0, _ => none
  | fuel + 1, s0 =>
    match s0.dropWhile isJsonWs with
    | [] => none
    | c :: rest =>
      if c = '"' then (parseStringBody rest).map (fun p => (JVal.str p.1, p.2))
      else if c = lbrace then parseObjBody fuel (rest.dropWhile isJsonWs)
      else if c = '[' then parseArrBody fuel (rest.dropWhile isJsonWs)
      else if isPre (sChars "true") (c :: rest) then some (JVal.bool true, (c :: rest).drop 4)
      else if isPre (sChars "false") (c :: rest) then some (JVal.bool false, (c :: rest).drop 5)
      else if isPre (sChars "null") (c :: rest) then some (JVal.null, (c :: rest).drop 4)
      else (parseNumLex (c :: rest)).map (fun p => (JVal.num p.1, p.2))

/-- Object body, positioned just after the opening brace and whitespace. -/
def parseObjBody : Nat → List Char → Option (JVal × List Char)
  | 0, _ => none
  | fuel + 1, s =>
    match s with
    | c :: rest =>
      if c = rbrace then some (JVal.obj [], rest)
      else (parseMembers fuel (c :: rest)).map (fun p => (JVal.obj p.1, p.2))
    | [] => none

/-- One or more `"key": value` members separated by commas, ending at the
closing brace. -/
def parseMembers : Nat → List Char → Option (List (List Char × JVal) × List Char)
  | 0, _ => none
  | fuel + 1, s =>
    match s.dropWhile isJsonWs with
    | '"' :: rest =>
      match parseStringBody rest with
      | some (key, rem) =>
        match rem.dropWhile isJsonWs with
        | ':' :: rem2 =>
          match parseVal fuel rem2 with
          | some (v, rem3) =>
            match rem3.dropWhile isJsonWs with
            | ',' :: rem4 => (parseMembers fuel rem4).map (fun p => ((key, v) :: p.1, p.2))
            | c :: rem4 => if c = rbrace then some ([(key, v)], rem4) else none
            | [] => none
          | none => none
        | _ => none
      | none => none
    | _ => none

/-- Array body, positioned just after the opening bracket and whitespace. -/
def parseArrBody : Nat → List Char → Option (JVal × List Char)
  | 0, _ => none
  | fuel + 1, s =>
    match s with
    | c :: rest =>
      if c = ']' then some (JVal.arr [], rest)
      else (parseElems fuel (c :: rest)).map (fun p => (JVal.arr p.1, p.2))
    | [] => none

/-- One or more array elements separated by commas, ending at the closing
bracket. -/
def parseElems : Nat → List Char → Option (List JVal × List Char)
  | 0, _ => none
  | fuel + 1, s =>
    match parseVal fuel s with
    | some (v, rem) =>
      match rem.dropWhile isJsonWs with
      | ',' :: rem2 => (parseElems fuel rem2).map (fun p => (v :: p.1, p.2))
      | c :: rem2 => if c = ']' then some ([v], rem2) else none
      | [] => none
    | none => none

end

/-- Model of `JSON.parse`: parse one value and require that only whitespace
remains. -/
def jsParse (s : List Char) : Option JVal :=
  match parseVal (2 * s.length + 4) s with
  | some (v, rem) => if (rem.dropWhile isJsonWs).isEmpty then some v else none
  | none => none

/-- Property lookup on an object value; as in JavaScript, a later duplicate
key shadows an earlier one. Non-objects have no looked-up properties here. -/
def getField (j : JVal) (key : List Char) : Option JVal :=
  match j with
  | .obj fields => fields.foldl (fun acc kv => if kv.1 = key then some kv.2 else acc) none
  | _ => none

/-- JavaScript truthiness of a possibly-undefined value (`none` plays the
role of `undefined`). A numeric lexeme made only of zeros, signs and dots is
the number zero. -/
def jsTruthy : Option JVal → Bool
  | none => false
  | some .null => false
  | some (.bool b) => b
  | some (.str s) => !s.isEmpty
  | some (.num lex) => !lex.all (fun c => c = '0' || c = '-' || c = '.')
  | some (.arr _) => true
  | some (.obj _) => true

mutual

/-- Model of `JSON.stringify` on parsed values. -/
def stringifyJVal : JVal → List Char
  | .null => sChars "null"
  | .bool true => sChars "true"
  | .bool false => sChars "false"
  | .num lex => lex
  | .str s => '"' :: s ++ ['"']
  | .arr xs => '[' :: stringifyElems xs ++ [']']
  | .obj fs => lbrace :: stringifyFields fs ++ [rbrace]

/-- Comma-separated serialization of array elements. -/
def stringifyElems : List JVal → List Char
  | [] => []
  | [x] => stringifyJVal x
  | x :: y :: xs => stringifyJVal x ++ ',' :: stringifyElems (y :: xs)

/-- Comma-separated serialization of object members. -/
def stringifyFields : List (List Char × JVal) → List Char
  | [] => []
  | [kv] => '"' :: kv.1 ++ '"' :: ':' :: stringifyJVal kv.2
  | kv :: kw :: fs => '"' :: kv.1 ++ '"' :: ':' :: stringifyJVal kv.2 ++ ',' :: stringifyFields (kw :: fs)

end

/-- Lexicographic comparison of character lists, used for key-sorted
serialization of parameter objects. -/
def lexLe : List Char → List Char → Bool
  | [], _ => true
  | _ :: _, [] => false
  | a :: as, b :: bs => if a = b then lexLe as bs else decide (a < b)

/-- Insertion into a key-sorted member list. -/
def insertByKey (kv : List Char × JVal) : List (List Char × JVal) → List (List Char × JVal)
  | [] => [kv]
  | kw :: fs => if lexLe kv.1 kw.1 then kv :: kw :: fs else kw :: insertByKey kv fs

/-- Insertion sort of object members by key. -/
def sortFieldsByKey (fs : List (List Char × JVal)) : List (List Char × JVal) :=
  fs.foldr insertByKey []

/-- Key normalization for parameter objects: top-level members in sorted key
order, as the specification requires for stable serialization. -/
def normalizeParams : JVal → JVal
  | .obj fs => .obj (sortFieldsByKey fs)
  | j => j

/-- Rendering of a possibly-undefined tool-name value into key text. -/
def jsNameChars : Option JVal → List Char
  | some (.str n) => n
  | some j => stringifyJVal j
  | none => sChars "undefined"

/-- Modelled from the spec: `generateCacheKey` of the `cache-manager` module,
which is not among the available sources. The specification requires a pure,
deterministic key derived from (subject, operation, parameter-set) with the
subject identifier first as the isolation boundary and a stable sorted-key
serialization of the parameters. -/
def generateToolCacheKey (toolName : Option JVal) (userId : List Char) (params : JVal) : List Char :=
  userId ++ ':' :: jsNameChars toolName ++ ':' :: stringifyJVal (normalizeParams params)

/-- The structured result union of a data-query tool: a payload object or an
error-shaped record carrying a message, exactly the two shapes every tool in
`chatbot.js` returns. -/
inductive ToolResult where
  | ok : JVal → ToolResult
  | error : List Char → ToolResult

/-- The JavaScript guard `result && !result.error`: a result is error-shaped
when it carries an `error` field (every tool uses a nonempty message). -/
def isErrTR : ToolResult → Bool
  | .error _ => true
  | .ok _ => false

/-- Modelled from the spec: the cache store of the `cache-manager` module
(key/value entries with an absolute expiry; a read at or past the expiry is a
miss). -/
structure ToolStore where
  entries : List (List Char × Nat × ToolResult)

/-- Modelled from the spec: `getCachedToolResult` — return the stored value
for the key when present and unexpired, else a miss. -/
def storeGet (s : ToolStore) (key : List Char) (now : Nat) : Option ToolResult :=
  match s.entries.find? (fun e => decide (e.1 = key)) with
  | some e => if now < e.2.1 then some e.2.2 else none
  | none => none

/-- Modelled from the spec: `setCachedToolResult` — store the value under the
key with expiry `now + ttl`, replacing any previous entry for the key. -/
def storePut (s : ToolStore) (key : List Char) (v : ToolResult) (now ttl : Nat) : ToolStore :=
  ⟨(key, now + ttl, v) :: s.entries.filter (fun e => decide (e.1 ≠ key))⟩

/-- Modelled from the spec: the tool-result cache tier uses a short TTL on
the order of minutes; the concrete duration is irrelevant to the theorems
below beyond being positive. -/
def toolTTL : Nat := 120000

/-- The twenty tool names of the `switch` statement in `executeTool`. -/
def knownToolNames : List (List Char) :=
  [sChars "getLoggedHours", sChars "getPendingTasks", sChars "getAssignedProjects",
   sChars "checkTodayTimesheet", sChars "getAttendanceStatus", sChars "getLeaveBalance",
   sChars "getPendingApprovals", sChars "getProjectTimeSpent", sChars "suggestTaskNames",
   sChars "getRepeatedEntries", sChars "checkMissingHours", sChars "getUpcomingDeadlines",
   sChars "detectIncompleteEntries", sChars "detectOverlappingHours", sChars "checkOvertimeLimits",
   sChars "suggestCorrections", sChars "getTodayTasks", sChars "getManagerMissingTimesheets",
   sChars "getTopLoggers", sChars "getOnboardingHelp"]

/-- Outcome of one `executeTool` call: the result, the tool store afterwards,
whether the underlying data query ran, and whether a cache write happened. -/
structure ToolExecOut where
  result : ToolResult
  store : ToolStore
  invoked : Bool
  wrote : Bool

/-- Embedding of the `switch` statement of `executeTool`: an unknown or
non-string tool name hits the default arm yielding an error-shaped result.
The abstract `run` stands for the read-only data-query collaborators invoked
by the twenty case arms, including each arm's selection of parameters. -/
def dispatchTool (run : List Char → List Char → List Char → JVal → ToolResult)
    (toolName : Option JVal) (userId userRole : List Char) (params : JVal) : ToolResult :=
  match toolName with
  | some (.str n) =>
    if knownToolNames.any (fun m => decide (m = n)) then run n userId userRole params
    else ToolResult.error (sChars "Unknown tool")
  | _ => ToolResult.error (sChars "Unknown tool")

/-- Embedding of the body of `executeTool`: consult the cache, dispatch on a
miss, and cache the result before returning only when it is not
error-shaped. -/
def executeTool (store : ToolStore) (now : Nat)
    (run : List Char → List Char → List Char → JVal → ToolResult)
    (toolName : Option JVal) (userId userRole : List Char) (params : JVal) : ToolExecOut :=
  match storeGet store (generateToolCacheKey toolName userId params) now with
  | some r => ⟨r, store, false, false⟩
  | none =>
    if isErrTR (dispatchTool run toolName userId userRole params) then
      ⟨dispatchTool run toolName userId userRole params, store, true, false⟩
    else
      ⟨dispatchTool run toolName userId userRole params,
       storePut store (generateToolCacheKey toolName userId params)
         (dispatchTool run toolName userId userRole params) now toolTTL, true, true⟩

/-- Behaviour of one backend HTTP round trip as observed by the route code:
a 2xx response whose extracted completion text is `content`, a non-2xx
response (`response.ok` false), or a rejected fetch. -/
inductive BackendResp where
  | ok : List Char → BackendResp
  | notOk : BackendResp
  | netThrow : BackendResp

/-- The response record cached by `setCachedResponse` and served on a
conversation-cache hit. -/
structure CachedResp where
  response : List Char
  modelName : List Char
  userId : List Char
  action : Option JVal

/-- One `setCachedResponse(userId, message, responseData, ctx)` call. -/
structure ConvWrite where
  userId : List Char
  message : List Char
  role : List Char
  data : CachedResp

/-- The apology text assigned on a caught tool-path error. -/
def apologyChars : List Char :=
  sChars "I tried to look up your data but encountered an error. Please try again."

/-- The fallback text when the summarization completion is empty. -/
def cantSummarizeChars : List Char :=
  sChars "I retrieved the data but couldn\x27t summarize it."

/-- Serialization of a tool result as `JSON.stringify` renders it. -/
def stringifyToolResult : ToolResult → List Char
  | .ok j => stringifyJVal j
  | .error m => sChars "\x7b\"error\":\"" ++ m ++ sChars "\"\x7d"

/-- Content of the `TOOL_RESULT` user message fed to the summarization call,
verbatim from the route code. -/
def toolResultMsg (r : ToolResult) : List Char :=
  sChars "TOOL_RESULT: " ++ stringifyToolResult r ++
    sChars " \n\nPlease summarize this data for the user in a friendly, helpful way.Use bullet points and emojis."

/-- The `toolCall.params || \x7b\x7d` expression. -/
def paramsOf (tc : JVal) : JVal :=
  match getField tc (sChars "params") with
  | some p => if jsTruthy (some p) then p else JVal.obj []
  | none => JVal.obj []

/-- Environment of one `/chat` turn: the request fields, the behaviour of the
two possible backend round trips, the external data-query collaborators and
the tool-result cache state. `modelField` is the value of
`data.model || 'llama-3.1-8b-instant'` from the first response. -/
structure TurnEnv where
  userId : List Char
  userRole : List Char
  message : List Char
  firstCall : BackendResp
  followUp : BackendResp
  modelField : List Char
  run : List Char → List Char → List Char → JVal → ToolResult
  toolStore : ToolStore
  now : Nat

/-- Observable outcome of the tool-directive stage of a turn. -/
structure ToolStageOut where
  text : List Char
  extraCalls : Nat
  toolCallsMade : Nat
  directive : Option JVal
  summMsg : Option (List Char)
  toolResultUsed : Option ToolResult
  storeAfter : ToolStore

/-- The `executeTool(toolCall.tool, userId, userRole, toolCall.params || \x7b\x7d)`
call of the route, for a parsed directive `tc`. -/
def turnExec (env : TurnEnv) (tc : JVal) : ToolExecOut :=
  executeTool env.toolStore env.now env.run (getField tc (sChars "tool"))
    env.userId env.userRole (paramsOf tc)

/-- Embedding of the `TOOL_CALL` block body once the directive `tc` parsed:
run `executeTool`, then the summarization round trip — a rejected fetch is
caught into the apology, a non-2xx response leaves the text unchanged, and a
2xx one replaces the text with the summarization completion (or the fallback
when that is empty). -/
def toolStageDispatch (env : TurnEnv) (content : List Char) (tc : JVal) : ToolStageOut :=
  match env.followUp with
  | .netThrow =>
    ⟨apologyChars, 1, 1, some tc, some (toolResultMsg (turnExec env tc).result),
     some (turnExec env tc).result, (turnExec env tc).store⟩
  | .notOk =>
    ⟨content, 1, 1, some tc, some (toolResultMsg (turnExec env tc).result),
     some (turnExec env tc).result, (turnExec env tc).store⟩
  | .ok s =>
    ⟨(if s.isEmpty then cantSummarizeChars else s), 1, 1, some tc,
     some (toolResultMsg (turnExec env tc).result),
     some (turnExec env tc).result, (turnExec env tc).store⟩

/-- Embedding of the `TOOL_CALL` block of the route: if the completion text
contains the marker and the regex captures a payload, `JSON.parse` it inside
the `try`; a parse failure is caught and replaces the whole reply with the
apology; on success the dispatch-and-summarize path runs. -/
def toolStage (env : TurnEnv) (content : List Char) : ToolStageOut :=
  if containsSub toolMarkerChars content then
    match matchFirst toolMarkerChars content with
    | none => ⟨content, 0, 0, none, none, none, env.toolStore⟩
    | some cap =>
      match jsParse cap with
      | none => ⟨apologyChars, 0, 0, none, none, none, env.toolStore⟩
      | some tc => toolStageDispatch env content tc
  else ⟨content, 0, 0, none, none, none, env.toolStore⟩

/-- Observable outcome of the action-directive stage of a turn. -/
structure ActionStageOut where
  text : List Char
  action : Option JVal

/-- Embedding of the `ACTION_COMMAND` block of the route: when the marker is
present and the regex captures a payload that parses, the command is kept and
every action-command match is stripped from the text, which is then trimmed;
a parse failure only logs and leaves text and command untouched. -/
def actionStage (t : List Char) : ActionStageOut :=
  if containsSub actionMarkerChars t then
    match matchFirst actionMarkerChars t with
    | none => ⟨t, none⟩
    | some cap =>
      match jsParse cap with
      | none => ⟨t, none⟩
      | some cmd => ⟨trimWs (stripActionAll t), some cmd⟩
  else ⟨t, none⟩

/-- Observable outcome of one completed `processRequest` run. -/
structure ProcOut where
  response : List Char
  modelName : List Char
  action : Option JVal
  backendCalls : Nat
  toolCallsMade : Nat
  directive : Option JVal
  summMsg : Option (List Char)
  toolResultUsed : Option ToolResult
  convWrites : List ConvWrite
  storeAfter : ToolStore

/-- Result of `processRequest`: either the promise rejected (counting the
backend calls issued before the throw) or it resolved with the response
record, after the unconditional `setCachedResponse` write. -/
inductive ProcResult where
  | failed : Nat → ProcResult
  | ok : ProcOut → ProcResult

/-- Observable outcome of a turn whose initial backend call returned the
completion text `content`: the tool stage, the action stage, then the
conversation-cache write of the response record. -/
def mkProcOut (env : TurnEnv) (content : List Char) : ProcOut :=
  ⟨(actionStage (toolStage env content).text).text, env.modelField,
   (actionStage (toolStage env content).text).action,
   1 + (toolStage env content).extraCalls, (toolStage env content).toolCallsMade,
   (toolStage env content).directive, (toolStage env content).summMsg,
   (toolStage env content).toolResultUsed,
   [⟨env.userId, env.message, env.userRole,
     ⟨(actionStage (toolStage env content).text).text, env.modelField, env.userId,
      (actionStage (toolStage env content).text).action⟩⟩],
   (toolStage env content).storeAfter⟩

/-- Embedding of the `processRequest` closure of `router.post('/chat')`: the
initial backend call (throwing on non-2xx or a rejected fetch), the tool
stage, the action stage, then the conversation-cache write of the response
record and its return. -/
def processRequest (env : TurnEnv) : ProcResult :=
  match env.firstCall with
  | .notOk => .failed 1
  | .netThrow => .failed 1
  | .ok content => .ok (mkProcOut env content)

/-- The JSON body sent to the client. `action` distinguishes an absent field
(`none`) from a field whose value is `null` (`some none`) or a command
(`some (some cmd)`). -/
structure ChatBody where
  response : List Char
  modelName : List Char
  cached : Bool
  action : Option (Option JVal)

/-- HTTP-level outcome of the `/chat` endpoint. -/
inductive EndpointResult where
  | badRequest : EndpointResult
  | serverError : EndpointResult
  | success : ChatBody → EndpointResult

/-- Outcome of the `/chat` endpoint together with the conversation-cache
writes performed and the number of backend calls issued. -/
structure EndpointOut where
  result : EndpointResult
  writes : List ConvWrite
  backendCalls : Nat

/-- Embedding of `router.post('/chat')`: reject an empty message with 400;
on a conversation-cache hit answer `\x7bresponse, model, cached: true\x7d`
without an `action` field and without backend calls; otherwise run the
deduplicated `processRequest` and answer
`\x7bresponse, model, cached: false, action: result.action or null\x7d`, or
500 when the promise rejected. -/
def chatEndpoint (cachedResp : Option CachedResp) (env : TurnEnv) : EndpointOut :=
  if env.message.isEmpty then ⟨.badRequest, [], 0⟩
  else
    match cachedResp with
    | some c => ⟨.success ⟨c.response, c.modelName, true, none⟩, [], 0⟩
    | none =>
      match processRequest env with
      | .failed n => ⟨.serverError, [], n⟩
      | .ok out =>
        ⟨.success ⟨out.response, out.modelName, false, some out.action⟩,
          out.convWrites, out.backendCalls⟩

/-- The `navigate` map of the browser-side `ACTION_REGISTRY` (target name to
destination URL). -/
def navRegistry : List (List Char × List Char) :=
  [(sChars "employee-dashboard", sChars "/employee.html"),
   (sChars "manager-dashboard", sChars "/manager.html"),
   (sChars "admin-dashboard", sChars "/admin.html"),
   (sChars "timesheets-page", sChars "/employee.html#timesheets"),
   (sChars "tasks-page", sChars "/employee.html#tasks"),
   (sChars "attendance-page", sChars "/employee.html#attendance"),
   (sChars "profile-page", sChars "/employee.html#profile"),
   (sChars "home", sChars "/home.html")]

/-- The `click` allow-list of the browser-side `ACTION_REGISTRY`. -/
def clickRegistry : List (List Char) :=
  [sChars "#addTimesheetBtn", sChars "#checkInBtn", sChars "#checkOutBtn",
   sChars "#submitTimesheetBtn", sChars "#addTaskBtn", sChars "#viewReportsBtn"]

/-- The `scroll` map of the browser-side `ACTION_REGISTRY` (section name to
selector). -/
def scrollRegistry : List (List Char × List Char) :=
  [(sChars "timesheets-section", sChars "#timesheetsSection"),
   (sChars "tasks-section", sChars "#tasksSection"),
   (sChars "attendance-section", sChars "#attendanceSection"),
   (sChars "reports-section", sChars "#reportsSection"),
   (sChars "profile-section", sChars "#profileSection")]

/-- The `open_modal` entries of the browser-side `ACTION_REGISTRY`; every
registered entry is a function, so registry membership decides execution. -/
def modalRegistry : List (List Char) :=
  [sChars "add-timesheet", sChars "edit-timesheet", sChars "add-task"]

/-- Lookup in a registry map. -/
def lookupAssoc (l : List (List Char × List Char)) (k : List Char) : Option (List Char) :=
  (l.find? (fun e => decide (e.1 = k))).map (fun e => e.2)

mutual

/-- The ECMAScript string coercion applied when a JSON-derived value is used
as a property key (`ToPropertyKey`, i.e. `ToString`): strings stay
themselves, booleans and null render as words, plain objects render as
`[object Object]`, and arrays render via `Array.prototype.join`. A numeric
lexeme is kept as written; integer lexemes coincide with the ECMAScript
rendering, and no numeric key can name a registry entry or an
`Object.prototype` member either way. -/
def toPropKey : JVal → List Char
  | .str s => s
  | .num lex => lex
  | .bool true => sChars "true"
  | .bool false => sChars "false"
  | .null => sChars "null"
  | .obj _ => sChars "[object Object]"
  | .arr xs => arrJoinKey xs

/-- Array-to-string coercion: elements coerced and joined with commas, a
`null` element rendering as the empty string (`Array.prototype.join`). -/
def arrJoinKey : List JVal → List Char
  | [] => []
  | [JVal.null] => []
  | [x] => toPropKey x
  | JVal.null :: y :: r => ',' :: arrJoinKey (y :: r)
  | x :: y :: r => toPropKey x ++ ',' :: arrJoinKey (y :: r)

end

/-- The function-valued own property names of `Object.prototype`: a bracket
lookup on a plain object literal with one of these keys walks the prototype
chain and yields the inherited built-in function, a truthy value. -/
def objectProtoFunctionKeys : List (List Char) :=
  [sChars "constructor", sChars "toString", sChars "toLocaleString",
   sChars "valueOf", sChars "hasOwnProperty", sChars "isPrototypeOf",
   sChars "propertyIsEnumerable", sChars "__defineGetter__",
   sChars "__defineSetter__", sChars "__lookupGetter__", sChars "__lookupSetter__"]

/-- All property names a plain object literal inherits from
`Object.prototype`: the function-valued ones plus the `__proto__` accessor,
which yields `Object.prototype` itself — also truthy, but not a function. -/
def objectProtoKeys : List (List Char) :=
  sChars "__proto__" :: objectProtoFunctionKeys

/-- Whether a bracket lookup with key `k` on an own-key-less position still
hits a truthy inherited `Object.prototype` member. -/
def isProtoKey (k : List Char) : Bool :=
  objectProtoKeys.any (fun x => decide (x = k))

/-- Whether the inherited member named `k` is a function (passes a
`typeof === 'function'` test). -/
def isProtoFunctionKey (k : List Char) : Bool :=
  objectProtoFunctionKeys.any (fun x => decide (x = k))

/-- Interpretation of `ACTION_REGISTRY.navigate[k]` being truthy: the key
names an own registry entry (whose value is the URL string) or an inherited
`Object.prototype` member (a truthy function or object). -/
def navLookupTruthy (k : List Char) : Bool :=
  (lookupAssoc navRegistry k).isSome || isProtoKey k

/-- Embedding of `executeNavigate`: a falsy target fails; the bracket lookup
on the coerced key is truthy for an own registry entry or an inherited
`Object.prototype` member, and in both cases the `!url` check passes, the
navigation is scheduled asynchronously, and the function returns true — an
inherited hit navigates to the coerced value of the inherited member. -/
def executeNavigate (target : Option JVal) : Bool :=
  if jsTruthy target then
    match target with
    | some v => navLookupTruthy (toPropKey v)
    | none => false
  else false

/-- Interpretation of `ACTION_REGISTRY.click[k]` being truthy: an own entry
(literal `true`) or an inherited `Object.prototype` member. -/
def clickLookupTruthy (k : List Char) : Bool :=
  clickRegistry.any (fun x => decide (x = k)) || isProtoKey k

/-- Embedding of `executeClick`: the element value must be truthy and its
coerced key must pass the bracket-lookup check — own entry or inherited
member alike — after which `querySelector` runs on the same string coercion
(every own or inherited key here is a valid CSS selector, so no selector
syntax error arises) and the element is clicked and true returned exactly
when the page has it. -/
def executeClick (dom : List Char → Bool) (element : Option JVal) : Bool :=
  if jsTruthy element then
    match element with
    | some v => clickLookupTruthy (toPropKey v) && dom (toPropKey v)
    | none => false
  else false

/-- Embedding of `executeScroll`: the target must be truthy; an own registry
entry yields a selector string looked up in the page. An inherited
`Object.prototype` member also passes the `!selector` check, but
`querySelector` then coerces the inherited function (or `Object.prototype`
itself, for `__proto__`) to a string — a function source text or
`[object Object]` — which is not a valid selector, so `querySelector` throws
and the catch in `executeChatbotAction` answers false; that observable
outcome is folded into the `none` result here, the same as a plain miss. -/
def executeScroll (dom : List Char → Bool) (target : Option JVal) : Bool :=
  if jsTruthy target then
    match target with
    | some v =>
      match lookupAssoc scrollRegistry (toPropKey v) with
      | some sel => dom sel
      | none => false
    | none => false
  else false

/-- Embedding of `executeOpenModal`: the modal value must be truthy; an own
registry entry is one of three form-opening functions, which is invoked and
true returned. An inherited function-valued `Object.prototype` member also
passes the `typeof === 'function'` test and is invoked with no arguments and
an undefined `this`; whether that built-in call completes (true) or throws
into the catch of `executeChatbotAction` (false) depends on the particular
built-in — per the ECMAScript spec `toString`, `constructor` and
`isPrototypeOf` complete while e.g. `valueOf` and `hasOwnProperty` throw on
`ToObject(undefined)` — abstracted by the environment `protoCall`. The
`__proto__` key yields `Object.prototype`, fails the function test, and
returns false. -/
def executeOpenModal (protoCall : List Char → Bool) (modal : Option JVal) : Bool :=
  if jsTruthy modal then
    match modal with
    | some v =>
      if modalRegistry.any (fun x => decide (x = toPropKey v)) then true
      else if isProtoFunctionKey (toPropKey v) then protoCall (toPropKey v)
      else false
    | none => false
  else false

/-- The value the `switch (action)` statement dispatches on: the `action`
property when it is a string; a strict-equality `case` label can match
nothing else. The fixed property names read here (`action`, `target`,
`element`, `modal`) name no `Object.prototype` member, so own-property
lookup is exact for them. -/
def actionKindOf (j : JVal) : Option (List Char) :=
  match getField j (sChars "action") with
  | some (.str a) => some a
  | _ => none

/-- The `switch (action)` statement of `executeChatbotAction`: dispatch on
the four supported kinds, answering false (the `default` arm) otherwise. -/
def dispatchAction (dom protoCall : List Char → Bool) (j : JVal) : Bool :=
  match actionKindOf j with
  | some a =>
    if a = sChars "navigate" then executeNavigate (getField j (sChars "target"))
    else if a = sChars "click" then executeClick dom (getField j (sChars "element"))
    else if a = sChars "scroll" then executeScroll dom (getField j (sChars "target"))
    else if a = sChars "open_modal" then executeOpenModal protoCall (getField j (sChars "modal"))
    else false
  | none => false

/-- Embedding of the browser-side `executeChatbotAction`: reject falsy data
or a falsy `action` property, then dispatch on the action kind; an unknown
kind returns false. The result is whether the command was executed; `dom`
says which selectors the page resolves and `protoCall` which inherited
built-ins complete when invoked bare. -/
def executeChatbotAction (dom protoCall : List Char → Bool) (actionData : Option JVal) : Bool :=
  if jsTruthy actionData then
    match actionData with
    | some j =>
      if jsTruthy (getField j (sChars "action")) then dispatchAction dom protoCall j
      else false
    | none => false
  else false

/-- Outcome delivered to every waiter of a deduplicated computation. -/
inductive DedupOutcome where
  | success : CachedResp → DedupOutcome
  | failure : List Char → DedupOutcome

/-- Modelled from the spec: the in-flight table of `deduplicateRequest` in
the `cache-manager` module, restricted to one deduplication key. `waiters`
lists the callers attached to the current in-flight computation (empty when
none is in flight) and `invocations` counts producer runs. -/
structure DedupState where
  waiters : List Nat
  invocations : Nat
deriving DecidableEq

/-- Modelled from the spec: one caller arriving at `deduplicateRequest` —
the atomic insert-if-absent-else-attach step. A caller arriving with no
in-flight computation becomes the producer run; any later caller attaches to
the same computation without re-invoking the producer. -/
def deduplicateArrive (s : DedupState) (caller : Nat) : DedupState :=
  if s.waiters.isEmpty then ⟨[caller], s.invocations + 1⟩
  else ⟨s.waiters ++ [caller], s.invocations⟩

/-- A burst of callers arriving in some order while nothing settles. -/
def deduplicateArriveAll (callers : List Nat) (s : DedupState) : DedupState :=
  callers.foldl deduplicateArrive s

/-- Modelled from the spec: the shared computation settling — every waiter
receives the same outcome (success or failure alike) and the in-flight entry
is removed the instant it settles. -/
def deduplicateSettle (s : DedupState) (outcome : DedupOutcome) :
    List (Nat × DedupOutcome) × DedupState :=
  (s.waiters.map (fun c => (c, outcome)), ⟨[], s.invocations⟩)

/-- A list is a prefix of itself followed by anything. -/
lemma isPre_append_self (p t : List Char) : isPre p (p ++ t) = true := by
  induction p with
  | nil => rfl
  | cons a as ih => simp [isPre, ih]

/-- A prefix occurrence is an occurrence. -/
lemma containsSub_of_isPre (p t : List Char) (h : isPre p t = true) :
    containsSub p t = true := by
  cases t with
  | nil =>
    cases p with
    | nil => rfl
    | cons a as => simp [isPre] at h
  | cons c r => simp [containsSub, h]

/-- An occurrence survives prepending one character. -/
lemma containsSub_cons (p : List Char) (c : Char) (r : List Char)
    (h : containsSub p r = true) : containsSub p (c :: r) = true := by
  simp [containsSub, h]

/-- An occurrence survives prepending any list. -/
lemma containsSub_append_left (p pre t : List Char) (h : containsSub p t = true) :
    containsSub p (pre ++ t) = true := by
  induction pre with
  | nil => simpa using h
  | cons c cs ih => exact containsSub_cons _ _ _ ih

/-- A pattern placed between two lists occurs in the concatenation. -/
lemma containsSub_middle (p a b : List Char) : containsSub p (a ++ p ++ b) = true := by
  rw [List.append_assoc]
  exact containsSub_append_left _ _ _
    (containsSub_of_isPre _ _ (isPre_append_self p b))

/-- An occurrence in a suffix obtained by `drop` is an occurrence. -/
lemma containsSub_drop (p : List Char) (n : Nat) (t : List Char)
    (h : containsSub p (t.drop n) = true) : containsSub p t = true := by
  induction n generalizing t with
  | zero => simpa using h
  | succ m ih =>
    cases t with
    | nil => simpa using h
    | cons c r => exact containsSub_cons _ _ _ (ih r (by simpa using h))

/-- An occurrence in a suffix obtained by `dropWhile` is an occurrence. -/
lemma containsSub_dropWhile (p : List Char) (f : Char → Bool) (t : List Char)
    (h : containsSub p (t.dropWhile f) = true) : containsSub p t = true := by
  induction t with
  | nil => simpa using h
  | cons c r ih =>
    by_cases hf : f c = true
    · exact containsSub_cons _ _ _ (ih (by simpa [List.dropWhile, hf] using h))
    · simpa [List.dropWhile, hf] using h


/-- A captured payload is a prefix of the whitespace-stripped input. -/
lemma matchPayload_pre (s cap : List Char) (h : matchPayload s = some cap) :
    ∃ tail, s.dropWhile isWs = cap ++ tail := by
  unfold matchPayload at h
  split at h
  · cases h
  · rename_i c rest hd
    split at h
    · rename_i hc
      split at h
      · rename_i d tl hrem
        split at h
        · rename_i hdr
          split at h
          · cases h
          · rename_i hrun
            injection h with hcap
            refine ⟨tl, ?_⟩
            have hsplit : rest.takeWhile (fun d => decide (d ≠ rbrace)) ++
                rest.dropWhile (fun d => decide (d ≠ rbrace)) = rest :=
              List.takeWhile_append_dropWhile _ _
            rw [hrem] at hsplit
            rw [hd, ← hsplit, ← hcap, hc, hdr]
            simp
        · cases h
      · cases h
    · cases h

/-- A captured payload occurs in the text it was captured from. -/
lemma matchPayload_contains (s cap : List Char) (h : matchPayload s = some cap) :
    containsSub cap s = true := by
  obtain ⟨tail, ht⟩ := matchPayload_pre s cap h
  refine containsSub_dropWhile _ isWs _ ?_
  rw [ht]
  exact containsSub_of_isPre _ _ (isPre_append_self cap tail)

/-- A successful first match implies the marker occurs in the text. -/
lemma matchFirst_contains_pat (pat t cap : List Char)
    (h : matchFirst pat t = some cap) : containsSub pat t = true := by
  induction t with
  | nil => cases h
  | cons c r ih =>
    unfold matchFirst at h
    by_cases hp : isPre pat (c :: r) = true
    · simp [containsSub, hp]
    · rw [if_neg (by simpa using hp)] at h
      exact containsSub_cons _ _ _ (ih h)

/-- A successful first match implies the captured payload occurs in the
text. -/
lemma matchFirst_contains_cap (pat t cap : List Char)
    (h : matchFirst pat t = some cap) : containsSub cap t = true := by
  induction t with
  | nil => cases h
  | cons c r ih =>
    unfold matchFirst at h
    by_cases hp : isPre pat (c :: r) = true
    · rw [if_pos hp] at h
      cases hm : matchPayload ((c :: r).drop pat.length) with
      | some cap2 =>
        rw [hm] at h
        injection h with hcap
        subst hcap
        exact containsSub_drop _ pat.length _ (matchPayload_contains _ _ hm)
      | none =>
        rw [hm] at h
        exact containsSub_cons _ _ _ (ih h)
    · rw [if_neg (by simpa using hp)] at h
      exact containsSub_cons _ _ _ (ih h)

/-- When the marker does not occur, the match fails. -/
lemma matchFirst_of_not_contains (pat t : List Char)
    (h : containsSub pat t = false) : matchFirst pat t = none := by
  induction t with
  | nil => rfl
  | cons c r ih =>
    unfold containsSub at h
    rw [Bool.or_eq_false_iff] at h
    unfold matchFirst
    rw [if_neg (by simp [h.1])]
    exact ih h.2

/-- The completed outcome of a `processRequest` run, if any. -/
def procOutOf : ProcResult → Option ProcOut
  | .ok out => some out
  | .failed _ => none

/-- Final response text of a completed run. -/
def procResponse (r : ProcResult) : Option (List Char) :=
  (procOutOf r).map (fun out => out.response)

/-- Number of backend calls of a completed run. -/
def procBackendCalls (r : ProcResult) : Option Nat :=
  (procOutOf r).map (fun out => out.backendCalls)

/-- Number of tool dispatches of a completed run. -/
def procToolCalls (r : ProcResult) : Option Nat :=
  (procOutOf r).map (fun out => out.toolCallsMade)

/-- Tool result fed to the summarization step of a completed run, if any. -/
def procToolResult (r : ProcResult) : Option (Option ToolResult) :=
  (procOutOf r).map (fun out => out.toolResultUsed)

/-- Number of conversation-cache writes of a completed run. -/
def procWriteCount (r : ProcResult) : Option Nat :=
  (procOutOf r).map (fun out => out.convWrites.length)

/-- Response text stored by the first conversation-cache write of a completed
run. -/
def procFirstWriteResponse (r : ProcResult) : Option (List Char) :=
  (procOutOf r).bind (fun out => (out.convWrites.head?).map (fun w => w.data.response))

/-- Per-stage accounting of the tool-directive block: at most one tool
dispatch, at most one extra backend call, the extra call happens exactly when
a tool was dispatched, and the honored directive is the parse of the first
regex match. -/
lemma toolStage_spec (env : TurnEnv) (content : List Char) :
    (toolStage env content).toolCallsMade ≤ 1 ∧
    (toolStage env content).extraCalls ≤ 1 ∧
    ((toolStage env content).extraCalls = 1 ↔ (toolStage env content).toolCallsMade = 1) ∧
    (toolStage env content).directive = (matchFirst toolMarkerChars content).bind jsParse := by
  unfold toolStage
  by_cases hc : containsSub toolMarkerChars content = true
  · simp only [hc, if_true]
    cases hm : matchFirst toolMarkerChars content with
    | none => simp
    | some cap =>
      cases hp : jsParse cap with
      | none => simp [hp]
      | some tc =>
        cases hf : env.followUp <;> simp [toolStageDispatch, hf, hp]
  · have hc2 : containsSub toolMarkerChars content = false := by simpa using hc
    simp only [hc2, Bool.false_eq_true, if_false]
    simp [matchFirst_of_not_contains _ _ hc2]

/-- When the captured payload fails to parse, the tool stage yields the
apology, no dispatch and no extra backend call. -/
lemma toolStage_parse_fail (env : TurnEnv) (content cap : List Char)
    (h2 : matchFirst toolMarkerChars content = some cap)
    (h3 : jsParse cap = none) :
    toolStage env content = ⟨apologyChars, 0, 0, none, none, none, env.toolStore⟩ := by
  have hc := matchFirst_contains_pat _ _ _ h2
  unfold toolStage
  simp [hc, h2, h3]

/-- When the captured payload parses, the tool stage is the
dispatch-and-summarize path. -/
lemma toolStage_parse_ok (env : TurnEnv) (content cap : List Char) (tc : JVal)
    (h2 : matchFirst toolMarkerChars content = some cap)
    (h3 : jsParse cap = some tc) :
    toolStage env content = toolStageDispatch env content tc := by
  have hc := matchFirst_contains_pat _ _ _ h2
  unfold toolStage
  simp [hc, h2, h3]

/-- Without an action marker the action stage changes nothing. -/
lemma actionStage_no_marker (t : List Char)
    (h : containsSub actionMarkerChars t = false) : actionStage t = ⟨t, none⟩ := by
  unfold actionStage
  simp [h]

/-- The run completes whenever the initial backend call succeeded. -/
lemma processRequest_ok (env : TurnEnv) (content : List Char)
    (h : env.firstCall = BackendResp.ok content) :
    processRequest env = ProcResult.ok (mkProcOut env content) := by
  unfold processRequest
  rw [h]

/-- C8: per turn, at most one tool directive is honored — the parse of the
first regex match of the `TOOL_CALL` marker — and at most two backend HTTP
calls are issued: the initial completion call, plus the summarization call
exactly when a directive was honored. A rejected initial call issued exactly
one backend call. -/
theorem c8_call_budget (env : TurnEnv) :
    (∀ n, processRequest env = ProcResult.failed n → n = 1) ∧
    (∀ out, processRequest env = ProcResult.ok out →
      out.toolCallsMade ≤ 1 ∧ out.backendCalls ≤ 2 ∧
      (out.backendCalls = 2 ↔ out.toolCallsMade = 1) ∧
      ∀ content, env.firstCall = BackendResp.ok content →
        out.directive = (matchFirst toolMarkerChars content).bind jsParse) := by
  constructor
  · intro n hn
    unfold processRequest at hn
    cases h : env.firstCall <;> rw [h] at hn <;> simp at hn <;> omega
  · intro out hout
    unfold processRequest at hout
    cases h : env.firstCall with
    | notOk => rw [h] at hout; cases hout
    | netThrow => rw [h] at hout; cases hout
    | ok content =>
      rw [h] at hout
      injection hout with hout
      subst hout
      obtain ⟨h1, h2, h3, h4⟩ := toolStage_spec env content
      refine ⟨h1, ?_, ?_, ?_⟩
      · show 1 + (toolStage env content).extraCalls ≤ 2
        omega
      · show 1 + (toolStage env content).extraCalls = 2 ↔ _
        rw [show (1 + (toolStage env content).extraCalls = 2) ↔
          ((toolStage env content).extraCalls = 1) from by omega]
        exact h3
      · intro content2 hcontent2
        injection hcontent2 with he
        rw [← he]
        exact h4

/-- A value just written under a key is read back until its expiry. -/
lemma storeGet_storePut_fresh (s : ToolStore) (key : List Char) (v : ToolResult)
    (now ttl t : Nat) (h : t < now + ttl) :
    storeGet (storePut s key v now ttl) key t = some v := by
  unfold storeGet storePut
  simp [List.find?_cons, h]

/-- C7: `executeTool` writes its result to the tool-result cache exactly when
the result is not error-shaped and the call was a cache miss; every
non-error result ends up readable under the `(toolName, userId, params)` key;
an error-shaped result leaves the store untouched; and after a fresh write a
repeated identical call within the TTL window is served from the cache
without re-invoking the underlying data query and returns the same result. -/
theorem c7_tool_cache_policy (store : ToolStore) (now : Nat)
    (run : List Char → List Char → List Char → JVal → ToolResult)
    (toolName : Option JVal) (userId userRole : List Char) (params : JVal) :
    (isErrTR (executeTool store now run toolName userId userRole params).result = true →
      (executeTool store now run toolName userId userRole params).store = store ∧
      (executeTool store now run toolName userId userRole params).wrote = false) ∧
    (isErrTR (executeTool store now run toolName userId userRole params).result = false →
      storeGet (executeTool store now run toolName userId userRole params).store
        (generateToolCacheKey toolName userId params) now =
        some (executeTool store now run toolName userId userRole params).result) ∧
    ((executeTool store now run toolName userId userRole params).wrote = true ↔
      (isErrTR (executeTool store now run toolName userId userRole params).result = false ∧
       storeGet store (generateToolCacheKey toolName userId params) now = none)) ∧
    ((executeTool store now run toolName userId userRole params).wrote = true →
      ∀ dt, dt < toolTTL →
        (executeTool (executeTool store now run toolName userId userRole params).store
          (now + dt) run toolName userId userRole params).invoked = false ∧
        (executeTool (executeTool store now run toolName userId userRole params).store
          (now + dt) run toolName userId userRole params).result =
          (executeTool store now run toolName userId userRole params).result) := by
  cases hg : storeGet store (generateToolCacheKey toolName userId params) now with
  | some r =>
    have hex : executeTool store now run toolName userId userRole params =
        ⟨r, store, false, false⟩ := by
      unfold executeTool
      rw [hg]
    rw [hex]
    refine ⟨fun _ => ⟨rfl, rfl⟩, fun _ => hg, ?_, ?_⟩
    · constructor
      · intro hw; cases hw
      · rintro ⟨-, hnone⟩; simp [hg] at hnone
    · intro hw; cases hw
  | none =>
    cases he : isErrTR (dispatchTool run toolName userId userRole params) with
    | true =>
      have hex : executeTool store now run toolName userId userRole params =
          ⟨dispatchTool run toolName userId userRole params, store, true, false⟩ := by
        unfold executeTool
        rw [hg, if_pos he]
      rw [hex]
      refine ⟨fun _ => ⟨rfl, rfl⟩, fun hfe => ?_, ?_, ?_⟩
      · rw [he] at hfe; cases hfe
      · constructor
        · intro hw; cases hw
        · rintro ⟨hfe, -⟩; rw [he] at hfe; cases hfe
      · intro hw; cases hw
    | false =>
      have hex : executeTool store now run toolName userId userRole params =
          ⟨dispatchTool run toolName userId userRole params,
           storePut store (generateToolCacheKey toolName userId params)
             (dispatchTool run toolName userId userRole params) now toolTTL,
           true, true⟩ := by
        unfold executeTool
        rw [hg, if_neg (by rw [he]; exact Bool.false_ne_true)]
      rw [hex]
      refine ⟨fun hte => ?_, fun _ => ?_, ?_, ?_⟩
      · rw [he] at hte; cases hte
      · exact storeGet_storePut_fresh _ _ _ _ _ _
          (Nat.lt_add_of_pos_right (by decide))
      · exact ⟨fun _ => ⟨he, by simp [hg]⟩, fun _ => rfl⟩
      · intro _ dt hdt
        have hg2 : storeGet
            (storePut store (generateToolCacheKey toolName userId params)
              (dispatchTool run toolName userId userRole params) now toolTTL)
            (generateToolCacheKey toolName userId params) (now + dt) =
            some (dispatchTool run toolName userId userRole params) :=
          storeGet_storePut_fresh _ _ _ _ _ _ (Nat.add_lt_add_left hdt now)
        constructor
        · unfold executeTool
          rw [hg2]
        · unfold executeTool
          rw [hg2]

/-- Concrete data-query collaborator used by the C7 witness. -/
def c7run : List Char → List Char → List Char → JVal → ToolResult :=
  fun _ _ _ _ => ToolResult.ok (JVal.obj [(sChars "totalHours", JVal.str (sChars "40.00"))])

/-- Concrete tool name used by the C7 witness. -/
def c7name : Option JVal := some (JVal.str (sChars "getLoggedHours"))

/-- Concrete parameter object used by the C7 witness. -/
def c7params : JVal := JVal.obj [(sChars "period", JVal.str (sChars "week"))]

/-- Witness for C7 at a concrete successful `getLoggedHours` call on an empty
store: the result is readable back under its key. -/
theorem c7_tool_cache_policy_w :
    storeGet (executeTool ⟨[]⟩ 0 c7run c7name (sChars "u1") (sChars "employee") c7params).store
      (generateToolCacheKey c7name (sChars "u1") c7params) 0 =
      some (executeTool ⟨[]⟩ 0 c7run c7name (sChars "u1") (sChars "employee") c7params).result :=
  (c7_tool_cache_policy ⟨[]⟩ 0 c7run c7name (sChars "u1") (sChars "employee") c7params).2.1 rfl

/-- Concrete completion text with one flat tool-call directive, used by the
C8 witness. -/
def c8content : List Char := sChars "Checking. TOOL_CALL: \x7b\"tool\": \"getPendingTasks\"\x7d"

/-- Concrete turn environment used by the C8 witness. -/
def envC8 : TurnEnv :=
  { userId := sChars "u1", userRole := sChars "employee",
    message := sChars "What tasks do I have?",
    firstCall := BackendResp.ok c8content,
    followUp := BackendResp.ok (sChars "You have 2 pending tasks."),
    modelField := sChars "llama-3.1-8b-instant",
    run := fun _ _ _ _ => ToolResult.ok (JVal.obj [(sChars "count", JVal.num (sChars "2"))]),
    toolStore := ⟨[]⟩, now := 0 }

/-- Witness for C8 at a concrete turn that honors one tool directive. -/
theorem c8_call_budget_w :
    (mkProcOut envC8 c8content).toolCallsMade ≤ 1 ∧
    (mkProcOut envC8 c8content).backendCalls ≤ 2 ∧
    (mkProcOut envC8 c8content).backendCalls = 2 ∧
    (mkProcOut envC8 c8content).toolCallsMade = 1 := by
  have hmain := (c8_call_budget envC8).2 (mkProcOut envC8 c8content)
    (processRequest_ok envC8 c8content rfl)
  exact ⟨hmain.1, hmain.2.1, by rfl, by rfl⟩

/-- C3 (amended): when the completion text contains a tool-call marker whose
captured payload cannot be parsed as JSON, the turn raises no error to the
caller; it completes with the entire completion text replaced by the fixed
apology message, with no tool dispatch, no summarization call and no action
command. -/
theorem c3_malformed_payload_no_throw (env : TurnEnv) (content cap : List Char)
    (h1 : env.firstCall = BackendResp.ok content)
    (h2 : matchFirst toolMarkerChars content = some cap)
    (h3 : jsParse cap = none) :
    processRequest env = ProcResult.ok (mkProcOut env content) ∧
    (mkProcOut env content).response = apologyChars ∧
    (mkProcOut env content).action = none ∧
    (mkProcOut env content).backendCalls = 1 ∧
    (mkProcOut env content).toolCallsMade = 0 := by
  have hts := toolStage_parse_fail env content cap h2 h3
  have has : actionStage apologyChars = ⟨apologyChars, none⟩ :=
    actionStage_no_marker _ (by decide)
  exact ⟨processRequest_ok env content h1,
    by simp [mkProcOut, hts, has], by simp [mkProcOut, hts, has],
    by simp [mkProcOut, hts], by simp [mkProcOut, hts]⟩

/-- Concrete completion text whose tool-call payload is not valid JSON. -/
def c3content : List Char := sChars "Sure! TOOL_CALL: \x7bbroken\x7d Here is the rest."

/-- Concrete turn environment used for C3. -/
def env3 : TurnEnv :=
  { userId := sChars "u1", userRole := sChars "employee",
    message := sChars "How many hours did I log this week?",
    firstCall := BackendResp.ok c3content,
    followUp := BackendResp.notOk,
    modelField := sChars "llama-3.1-8b-instant",
    run := fun _ _ _ _ => ToolResult.ok (JVal.obj []),
    toolStore := ⟨[]⟩, now := 0 }

/-- Counterexample for C3 as stated: on a malformed payload the turn does not
complete with the residual text (marker stripped, surroundings untouched);
the whole reply is replaced by the apology, which contains neither the
surrounding text nor the marker. -/
theorem c3_malformed_payload_apology :
    matchFirst toolMarkerChars c3content = some (sChars "\x7bbroken\x7d") ∧
    jsParse (sChars "\x7bbroken\x7d") = none ∧
    procResponse (processRequest env3) = some apologyChars ∧
    containsSub (sChars "Sure!") apologyChars = false ∧
    containsSub (sChars "Here is the rest.") apologyChars = false :=
  ⟨rfl, rfl, rfl, by decide, by decide⟩

/-- Witness for the amended C3 at the concrete malformed-payload turn. -/
theorem c3_malformed_payload_no_throw_w :
    processRequest env3 = ProcResult.ok (mkProcOut env3 c3content) ∧
    (mkProcOut env3 c3content).response = apologyChars ∧
    (mkProcOut env3 c3content).backendCalls = 1 := by
  have h := c3_malformed_payload_no_throw env3 c3content (sChars "\x7bbroken\x7d") rfl rfl rfl
  exact ⟨h.1, h.2.1, h.2.2.2.1⟩

/-- C2 (amended): a turn whose initial backend call fails (non-2xx or a
rejected fetch) throws before any conversation-cache write; the endpoint
answers 500 with zero writes, so an identical follow-up request finds no
cached entry and performs a real backend attempt. -/
theorem c2_initial_backend_failure_not_cached (cachedResp : Option CachedResp)
    (env : TurnEnv)
    (h0 : env.message.isEmpty = false)
    (h1 : env.firstCall = BackendResp.notOk ∨ env.firstCall = BackendResp.netThrow)
    (h2 : cachedResp = none) :
    chatEndpoint cachedResp env = ⟨EndpointResult.serverError, [], 1⟩ := by
  have hp : processRequest env = ProcResult.failed 1 := by
    unfold processRequest
    rcases h1 with h | h <;> rw [h]
  subst h2
  unfold chatEndpoint
  simp [h0, hp]

/-- Concrete completion text with a flat tool-call directive whose tool
returns an error-shaped result, used for C2. -/
def c2content : List Char := sChars "TOOL_CALL: \x7b\"tool\": \"getPendingTasks\"\x7d"

/-- Concrete turn environment for C2: the dispatched tool fails with an
error-shaped result and the summarization call succeeds. -/
def env2 : TurnEnv :=
  { userId := sChars "u1", userRole := sChars "employee",
    message := sChars "What tasks do I have?",
    firstCall := BackendResp.ok c2content,
    followUp := BackendResp.ok (sChars "Sorry, I could not fetch your tasks."),
    modelField := sChars "llama-3.1-8b-instant",
    run := fun _ _ _ _ => ToolResult.error (sChars "Failed to get tasks"),
    toolStore := ⟨[]⟩, now := 0 }

/-- Counterexample for C2 as stated: a turn that encountered a tool-level
error (an error-shaped tool result) still performs exactly one
conversation-cache write, storing the turn's response. -/
theorem c2_tool_error_turn_is_cached :
    procToolResult (processRequest env2) =
      some (some (ToolResult.error (sChars "Failed to get tasks"))) ∧
    procWriteCount (processRequest env2) = some 1 ∧
    procFirstWriteResponse (processRequest env2) =
      some (sChars "Sorry, I could not fetch your tasks.") :=
  ⟨rfl, rfl, rfl⟩

/-- Concrete turn environment whose initial backend call is non-2xx. -/
def env2b : TurnEnv :=
  { userId := sChars "u1", userRole := sChars "employee",
    message := sChars "What tasks do I have?",
    firstCall := BackendResp.notOk,
    followUp := BackendResp.notOk,
    modelField := sChars "llama-3.1-8b-instant",
    run := fun _ _ _ _ => ToolResult.ok (JVal.obj []),
    toolStore := ⟨[]⟩, now := 0 }

/-- Witness for the amended C2 at a concrete failing initial call. -/
theorem c2_initial_backend_failure_not_cached_w :
    chatEndpoint none env2b = ⟨EndpointResult.serverError, [], 1⟩ :=
  c2_initial_backend_failure_not_cached none env2b rfl (Or.inl rfl) rfl

/-- C5: when the parsed directive's tool execution yields an error-shaped
result, the turn is not aborted — the serialized error payload is embedded in
the `TOOL_RESULT` message fed to the summarization backend call, and the
summarization completion becomes the user-visible response. -/
theorem c5_tool_error_fed_to_summarization (env : TurnEnv) (content cap : List Char)
    (tc : JVal) (m s : List Char)
    (h1 : env.firstCall = BackendResp.ok content)
    (h2 : matchFirst toolMarkerChars content = some cap)
    (h3 : jsParse cap = some tc)
    (h4 : (turnExec env tc).result = ToolResult.error m)
    (h5 : env.followUp = BackendResp.ok s)
    (h6 : s.isEmpty = false)
    (h7 : containsSub actionMarkerChars s = false) :
    processRequest env = ProcResult.ok (mkProcOut env content) ∧
    (mkProcOut env content).response = s ∧
    (mkProcOut env content).summMsg = some (toolResultMsg (ToolResult.error m)) ∧
    (mkProcOut env content).toolResultUsed = some (ToolResult.error m) ∧
    (mkProcOut env content).backendCalls = 2 ∧
    containsSub (stringifyToolResult (ToolResult.error m))
      (toolResultMsg (ToolResult.error m)) = true := by
  have hts := toolStage_parse_ok env content cap tc h2 h3
  have htd : toolStageDispatch env content tc =
      ⟨s, 1, 1, some tc, some (toolResultMsg (ToolResult.error m)),
       some (ToolResult.error m), (turnExec env tc).store⟩ := by
    unfold toolStageDispatch
    rw [h5, h4]
    simp [h6]
  have has : actionStage s = ⟨s, none⟩ := actionStage_no_marker _ h7
  refine ⟨processRequest_ok env content h1, ?_, ?_, ?_, ?_, ?_⟩
  · simp [mkProcOut, hts, htd, has]
  · simp [mkProcOut, hts, htd]
  · simp [mkProcOut, hts, htd]
  · simp [mkProcOut, hts, htd]
  · exact containsSub_middle _ _ _

/-- Concrete flat directive capture used by the C5 witness. -/
def cap5 : List Char := sChars "\x7b\"tool\": \"getPendingTasks\"\x7d"

/-- Concrete parsed directive used by the C5 witness. -/
def tc5 : JVal := JVal.obj [(sChars "tool", JVal.str (sChars "getPendingTasks"))]

/-- Concrete completion text used by the C5 witness. -/
def c5content : List Char := sChars "TOOL_CALL: \x7b\"tool\": \"getPendingTasks\"\x7d"

/-- Concrete turn environment used by the C5 witness. -/
def env5 : TurnEnv :=
  { userId := sChars "u1", userRole := sChars "employee",
    message := sChars "What tasks do I have?",
    firstCall := BackendResp.ok c5content,
    followUp := BackendResp.ok (sChars "Here is what I found."),
    modelField := sChars "llama-3.1-8b-instant",
    run := fun _ _ _ _ => ToolResult.error (sChars "Failed to get tasks"),
    toolStore := ⟨[]⟩, now := 0 }

/-- Witness for C5 at the concrete failing-tool turn. -/
theorem c5_tool_error_fed_to_summarization_w :
    (mkProcOut env5 c5content).response = sChars "Here is what I found." ∧
    (mkProcOut env5 c5content).summMsg =
      some (toolResultMsg (ToolResult.error (sChars "Failed to get tasks"))) ∧
    (mkProcOut env5 c5content).backendCalls = 2 := by
  have h := c5_tool_error_fed_to_summarization env5 c5content cap5 tc5
    (sChars "Failed to get tasks") (sChars "Here is what I found.")
    rfl rfl rfl rfl rfl rfl (by decide)
  exact ⟨h.2.1, h.2.2.1, h.2.2.2.2.1⟩

/-- C10: when the completion carries a parseable flat tool directive but the
summarization call answers non-2xx, the turn still completes successfully:
the client receives the first completion's text with the `TOOL_CALL` marker
and its captured payload left in place, `cached` is false, and that same text
is written to the conversation response cache. -/
theorem c10_summarize_failure_uses_original (env : TurnEnv) (content cap : List Char)
    (tc : JVal)
    (h0 : env.message.isEmpty = false)
    (h1 : env.firstCall = BackendResp.ok content)
    (h2 : matchFirst toolMarkerChars content = some cap)
    (h3 : jsParse cap = some tc)
    (h5 : env.followUp = BackendResp.notOk)
    (h7 : containsSub actionMarkerChars content = false) :
    chatEndpoint none env =
      ⟨EndpointResult.success ⟨content, env.modelField, false, some none⟩,
       [⟨env.userId, env.message, env.userRole,
         ⟨content, env.modelField, env.userId, none⟩⟩], 2⟩ ∧
    containsSub toolMarkerChars content = true ∧
    containsSub cap content = true := by
  have hts := toolStage_parse_ok env content cap tc h2 h3
  have htd : toolStageDispatch env content tc =
      ⟨content, 1, 1, some tc, some (toolResultMsg (turnExec env tc).result),
       some (turnExec env tc).result, (turnExec env tc).store⟩ := by
    unfold toolStageDispatch
    rw [h5]
  have has := actionStage_no_marker content h7
  refine ⟨?_, matchFirst_contains_pat _ _ _ h2, matchFirst_contains_cap _ _ _ h2⟩
  have hmk : mkProcOut env content =
      ⟨content, env.modelField, none, 2, 1, some tc,
       some (toolResultMsg (turnExec env tc).result), some (turnExec env tc).result,
       [⟨env.userId, env.message, env.userRole,
         ⟨content, env.modelField, env.userId, none⟩⟩], (turnExec env tc).store⟩ := by
    simp [mkProcOut, hts, htd, has]
  unfold chatEndpoint
  simp [h0, processRequest_ok env content h1, hmk]

/-- Concrete completion text used by the C10 witness. -/
def c10content : List Char := sChars "Let me check. TOOL_CALL: \x7b\"tool\": \"getPendingTasks\"\x7d"

/-- Concrete turn environment used by the C10 witness: the summarization call
answers non-2xx. -/
def env10 : TurnEnv :=
  { userId := sChars "u1", userRole := sChars "employee",
    message := sChars "What tasks do I have?",
    firstCall := BackendResp.ok c10content,
    followUp := BackendResp.notOk,
    modelField := sChars "llama-3.1-8b-instant",
    run := fun _ _ _ _ => ToolResult.ok (JVal.obj [(sChars "count", JVal.num (sChars "2"))]),
    toolStore := ⟨[]⟩, now := 0 }

/-- Witness for C10 at the concrete failed-summarization turn. -/
theorem c10_summarize_failure_uses_original_w :
    chatEndpoint none env10 =
      ⟨EndpointResult.success ⟨c10content, sChars "llama-3.1-8b-instant", false, some none⟩,
       [⟨sChars "u1", sChars "What tasks do I have?", sChars "employee",
         ⟨c10content, sChars "llama-3.1-8b-instant", sChars "u1", none⟩⟩], 2⟩ ∧
    containsSub toolMarkerChars c10content = true := by
  have h := c10_summarize_failure_uses_original env10 c10content
    (sChars "\x7b\"tool\": \"getPendingTasks\"\x7d")
    (JVal.obj [(sChars "tool", JVal.str (sChars "getPendingTasks"))])
    rfl rfl rfl rfl rfl (by decide)
  exact ⟨h.1, h.2.1⟩

/-- The exact tool-call directive format documented in the route's own system
prompt (`TOOL_CALL:` followed by a JSON object with a nested `params`
object). -/
def c4content : List Char :=
  sChars "TOOL_CALL: \x7b\"tool\": \"getLoggedHours\", \"params\": \x7b\"period\": \"week\"\x7d\x7d"

/-- The fragment the route's regex actually captures from that directive: it
stops at the first closing brace, leaving the outer object unterminated. -/
def c4fragment : List Char :=
  sChars "\x7b\"tool\": \"getLoggedHours\", \"params\": \x7b\"period\": \"week\"\x7d"

/-- Concrete turn environment for the C4 scenario: the backend emits the
documented directive for the message of the scenario. -/
def env4 : TurnEnv :=
  { userId := sChars "u1", userRole := sChars "employee",
    message := sChars "How many hours did I log this week?",
    firstCall := BackendResp.ok c4content,
    followUp := BackendResp.ok (sChars "You logged 40 hours this week."),
    modelField := sChars "llama-3.1-8b-instant",
    run := fun _ _ _ _ => ToolResult.ok (JVal.obj [(sChars "totalHours", JVal.str (sChars "40.00"))]),
    toolStore := ⟨[]⟩, now := 0 }

/-- C4: on the scenario's own directive text — the format the system prompt
documents — the regex captures an unterminated fragment, `JSON.parse` fails,
and the turn answers the apology with one backend call, no tool dispatch and
no summarization call, instead of dispatching `getLoggedHours` and
summarizing. -/
theorem c4_documented_directive_fails_to_parse :
    matchFirst toolMarkerChars c4content = some c4fragment ∧
    jsParse c4fragment = none ∧
    procResponse (processRequest env4) = some apologyChars ∧
    procBackendCalls (processRequest env4) = some 1 ∧
    procToolCalls (processRequest env4) = some 0 ∧
    procWriteCount (processRequest env4) = some 1 :=
  ⟨rfl, rfl, rfl, rfl, rfl, rfl⟩

/-- Concrete cached response record (even carrying an action command) used
for C6. -/
def c6cached : CachedResp :=
  ⟨sChars "You logged 40 hours this week.", sChars "llama-3.1-8b-instant", sChars "u1",
   some (JVal.obj [(sChars "action", JVal.str (sChars "navigate")),
                   (sChars "target", JVal.str (sChars "employee-dashboard"))])⟩

/-- Concrete turn environment used for C6 (its backend side is never reached
on a cache hit). -/
def env6 : TurnEnv :=
  { userId := sChars "u1", userRole := sChars "employee",
    message := sChars "How many hours did I log this week?",
    firstCall := BackendResp.notOk,
    followUp := BackendResp.notOk,
    modelField := sChars "llama-3.1-8b-instant",
    run := fun _ _ _ _ => ToolResult.ok (JVal.obj []),
    toolStore := ⟨[]⟩, now := 0 }

/-- Counterexample for C6 as stated: on the cache-hit path the body is
`\x7bresponse, model, cached: true\x7d` with no `action` field at all — even
when the cached record carried an action command. -/
theorem c6_cache_hit_action_field_absent :
    chatEndpoint (some c6cached) env6 =
      ⟨EndpointResult.success
        ⟨sChars "You logged 40 hours this week.", sChars "llama-3.1-8b-instant", true, none⟩,
       [], 0⟩ :=
  rfl

/-- C6 (amended): every successful `/chat` body has the
`\x7bresponse, model, cached, action\x7d` shape with the `action` field
present (a command or `null`) exactly on the cache-miss path; on the
cache-hit path — taken exactly when a cached entry exists — the `action`
field is absent. -/
theorem c6_response_shape (cachedResp : Option CachedResp) (env : TurnEnv)
    (body : ChatBody) (writes : List ConvWrite) (n : Nat)
    (h : chatEndpoint cachedResp env = ⟨EndpointResult.success body, writes, n⟩) :
    (body.cached = true → body.action = none) ∧
    (body.cached = false → ∃ a, body.action = some a) ∧
    (body.cached = true ↔ ∃ c, cachedResp = some c) := by
  unfold chatEndpoint at h
  by_cases hm : env.message.isEmpty = true
  · rw [if_pos hm] at h
    simp at h
  · rw [if_neg hm] at h
    cases hc : cachedResp with
    | some c =>
      rw [hc] at h
      simp only [EndpointOut.mk.injEq, EndpointResult.success.injEq] at h
      obtain ⟨hb, -, -⟩ := h
      subst hb
      refine ⟨fun _ => rfl, fun hfalse => ?_, ?_⟩
      · cases hfalse
      · exact ⟨fun _ => ⟨c, rfl⟩, fun _ => rfl⟩
    | none =>
      rw [hc] at h
      cases hp : processRequest env with
      | failed k =>
        rw [hp] at h
        simp at h
      | ok out =>
        rw [hp] at h
        simp only [EndpointOut.mk.injEq, EndpointResult.success.injEq] at h
        obtain ⟨hb, -, -⟩ := h
        subst hb
        refine ⟨fun htrue => ?_, fun _ => ⟨out.action, rfl⟩, ?_⟩
        · cases htrue
        · constructor
          · intro hff; cases hff
          · rintro ⟨c, hc⟩; cases hc

/-- Witness for the amended C6 at the concrete cache-hit turn: the hit body
carries no `action` field. -/
theorem c6_response_shape_w :
    (⟨sChars "You logged 40 hours this week.", sChars "llama-3.1-8b-instant", true, none⟩ :
      ChatBody).action = none :=
  (c6_response_shape (some c6cached) env6
    ⟨sChars "You logged 40 hours this week.", sChars "llama-3.1-8b-instant", true, none⟩
    [] 0 rfl).1 rfl

/-- Recovering the `action` field from a successful kind dispatch. -/
lemma actionKindOf_some (j : JVal) (a : List Char) (h : actionKindOf j = some a) :
    getField j (sChars "action") = some (JVal.str a) := by
  unfold actionKindOf at h
  split at h
  · rename_i a2 heq
    injection h with h
    subst h
    exact heq
  · cases h

/-- C1 (amended): the browser-side action executor is the only gate, and it
restricts execution up to the semantics of a plain-object bracket lookup —
whenever `executeChatbotAction` executes a command, its kind is one of the
four supported kinds and the ECMAScript string coercion of its
target/element/modal value is either a literal member of the corresponding
fixed registry or a property name inherited from `Object.prototype` (for the
scroll kind, a registry member only). The gate is thus bypassable through
inherited names and key coercion, but nothing outside the registries and the
`Object.prototype` names is ever executed. -/
theorem c1_client_gate_allowlist (dom protoCall : List Char → Bool) (a : Option JVal)
    (h : executeChatbotAction dom protoCall a = true) :
    ∃ j, a = some j ∧
      ((getField j (sChars "action") = some (JVal.str (sChars "navigate")) ∧
        ∃ v, getField j (sChars "target") = some v ∧
          ((lookupAssoc navRegistry (toPropKey v)).isSome = true ∨
           isProtoKey (toPropKey v) = true)) ∨
       (getField j (sChars "action") = some (JVal.str (sChars "click")) ∧
        ∃ v, getField j (sChars "element") = some v ∧
          (clickRegistry.any (fun x => decide (x = toPropKey v)) = true ∨
           isProtoKey (toPropKey v) = true)) ∨
       (getField j (sChars "action") = some (JVal.str (sChars "scroll")) ∧
        ∃ v, getField j (sChars "target") = some v ∧
          (lookupAssoc scrollRegistry (toPropKey v)).isSome = true) ∨
       (getField j (sChars "action") = some (JVal.str (sChars "open_modal")) ∧
        ∃ v, getField j (sChars "modal") = some v ∧
          (modalRegistry.any (fun x => decide (x = toPropKey v)) = true ∨
           isProtoFunctionKey (toPropKey v) = true))) := by
  cases a with
  | none => simp [executeChatbotAction, jsTruthy] at h
  | some j =>
    refine ⟨j, rfl, ?_⟩
    have h2 : dispatchAction dom protoCall j = true := by
      unfold executeChatbotAction at h
      by_cases ht : jsTruthy (some j) = true
      · rw [if_pos ht] at h
        have h3 : (if jsTruthy (getField j (sChars "action")) then
            dispatchAction dom protoCall j else false) = true := h
        by_cases ha : jsTruthy (getField j (sChars "action")) = true
        · rwa [if_pos ha] at h3
        · rw [if_neg (by simpa using ha)] at h3
          exact Bool.noConfusion h3
      · rw [if_neg (by simpa using ht)] at h
        exact Bool.noConfusion h
    clear h
    unfold dispatchAction at h2
    cases hk : actionKindOf j with
    | none => rw [hk] at h2; exact Bool.noConfusion h2
    | some aK =>
      rw [hk] at h2
      have hfield := actionKindOf_some j aK hk
      have h4 : (if aK = sChars "navigate" then executeNavigate (getField j (sChars "target"))
          else if aK = sChars "click" then executeClick dom (getField j (sChars "element"))
          else if aK = sChars "scroll" then executeScroll dom (getField j (sChars "target"))
          else if aK = sChars "open_modal" then
            executeOpenModal protoCall (getField j (sChars "modal"))
          else false) = true := h2
      by_cases h1 : aK = sChars "navigate"
      · subst h1
        rw [if_pos rfl] at h4
        refine Or.inl ⟨hfield, ?_⟩
        unfold executeNavigate at h4
        by_cases htg : jsTruthy (getField j (sChars "target")) = true
        · rw [if_pos htg] at h4
          cases hft : getField j (sChars "target") with
          | none => rw [hft] at h4; exact Bool.noConfusion h4
          | some v =>
            rw [hft] at h4
            have h5 : navLookupTruthy (toPropKey v) = true := h4
            unfold navLookupTruthy at h5
            exact ⟨v, rfl, (Bool.or_eq_true _ _).mp h5⟩
        · rw [if_neg (by simpa using htg)] at h4
          exact Bool.noConfusion h4
      · rw [if_neg h1] at h4
        by_cases hb : aK = sChars "click"
        · subst hb
          rw [if_pos rfl] at h4
          refine Or.inr (Or.inl ⟨hfield, ?_⟩)
          unfold executeClick at h4
          by_cases hte : jsTruthy (getField j (sChars "element")) = true
          · rw [if_pos hte] at h4
            cases hft : getField j (sChars "element") with
            | none => rw [hft] at h4; exact Bool.noConfusion h4
            | some v =>
              rw [hft] at h4
              have h5 : (clickLookupTruthy (toPropKey v) && dom (toPropKey v)) = true := h4
              have h6 := ((Bool.and_eq_true _ _).mp h5).1
              unfold clickLookupTruthy at h6
              exact ⟨v, rfl, (Bool.or_eq_true _ _).mp h6⟩
          · rw [if_neg (by simpa using hte)] at h4
            exact Bool.noConfusion h4
        · rw [if_neg hb] at h4
          by_cases hs : aK = sChars "scroll"
          · subst hs
            rw [if_pos rfl] at h4
            refine Or.inr (Or.inr (Or.inl ⟨hfield, ?_⟩))
            unfold executeScroll at h4
            by_cases htg : jsTruthy (getField j (sChars "target")) = true
            · rw [if_pos htg] at h4
              cases hft : getField j (sChars "target") with
              | none => rw [hft] at h4; exact Bool.noConfusion h4
              | some v =>
                rw [hft] at h4
                have h5 : (match lookupAssoc scrollRegistry (toPropKey v) with
                    | some sel => dom sel
                    | none => false) = true := h4
                cases hlu : lookupAssoc scrollRegistry (toPropKey v) with
                | none => rw [hlu] at h5; exact Bool.noConfusion h5
                | some sel => exact ⟨v, rfl, by rw [hlu]; rfl⟩
            · rw [if_neg (by simpa using htg)] at h4
              exact Bool.noConfusion h4
          · rw [if_neg hs] at h4
            by_cases ho : aK = sChars "open_modal"
            · subst ho
              rw [if_pos rfl] at h4
              refine Or.inr (Or.inr (Or.inr ⟨hfield, ?_⟩))
              unfold executeOpenModal at h4
              by_cases htm : jsTruthy (getField j (sChars "modal")) = true
              · rw [if_pos htm] at h4
                cases hft : getField j (sChars "modal") with
                | none => rw [hft] at h4; exact Bool.noConfusion h4
                | some v =>
                  rw [hft] at h4
                  have h5 : (if modalRegistry.any (fun x => decide (x = toPropKey v)) then
                      true
                      else if isProtoFunctionKey (toPropKey v) then protoCall (toPropKey v)
                      else false) = true := h4
                  by_cases hmR : modalRegistry.any (fun x => decide (x = toPropKey v)) = true
                  · exact ⟨v, rfl, Or.inl hmR⟩
                  · rw [if_neg (by simpa using hmR)] at h5
                    by_cases hpf : isProtoFunctionKey (toPropKey v) = true
                    · exact ⟨v, rfl, Or.inr hpf⟩
                    · rw [if_neg (by simpa using hpf)] at h5
                      exact Bool.noConfusion h5
              · rw [if_neg (by simpa using htm)] at h4
                exact Bool.noConfusion h4
            · rw [if_neg ho] at h4
              exact Bool.noConfusion h4

/-- Concrete completion text carrying an action command whose target is not
in any registry. -/
def c1content : List Char :=
  sChars "ACTION_COMMAND: \x7b\"action\": \"navigate\", \"target\": \"secret-admin-panel\"\x7d Opening it now!"

/-- The parsed non-registry action command. -/
def c1cmd : JVal :=
  JVal.obj [(sChars "action", JVal.str (sChars "navigate")),
            (sChars "target", JVal.str (sChars "secret-admin-panel"))]

/-- Concrete turn environment used for C1. -/
def env1 : TurnEnv :=
  { userId := sChars "u1", userRole := sChars "employee",
    message := sChars "Open my secret-admin-panel",
    firstCall := BackendResp.ok c1content,
    followUp := BackendResp.notOk,
    modelField := sChars "llama-3.1-8b-instant",
    run := fun _ _ _ _ => ToolResult.ok (JVal.obj []),
    toolStore := ⟨[]⟩, now := 0 }

/-- Counterexample for C1 as stated: the server-side route performs no
allow-list validation — the well-formed command with the non-registry target
`secret-admin-panel` is carried verbatim in the client-facing response
(`action` is the command, not `null`), even though the target is in no
registry — nor an inherited property name — and the browser-side executor
would refuse to execute it in any page and prototype environment. -/
theorem c1_unvalidated_action_reaches_client :
    (chatEndpoint none env1).result =
      EndpointResult.success
        ⟨sChars "Opening it now!", sChars "llama-3.1-8b-instant", false, some (some c1cmd)⟩ ∧
    (lookupAssoc navRegistry (sChars "secret-admin-panel")).isSome = false ∧
    isProtoKey (sChars "secret-admin-panel") = false ∧
    executeChatbotAction (fun _ => true) (fun _ => true) (some c1cmd) = false :=
  ⟨rfl, rfl, rfl, rfl⟩

/-- Concrete action command whose target is the inherited property name
`toString`, used by the C1 witness. -/
def c1wcmd : JVal :=
  JVal.obj [(sChars "action", JVal.str (sChars "navigate")),
            (sChars "target", JVal.str (sChars "toString"))]

/-- Witness for the amended C1: the command `navigate/toString` really is
executed (its hypothesis holds by computation — the bracket lookup hits the
inherited `Object.prototype.toString`, the truthiness check passes, and
`executeNavigate` returns true), and the theorem places its key inside the
registry-or-inherited set, on the inherited side. -/
theorem c1_client_gate_allowlist_w :
    ∃ j, (some c1wcmd : Option JVal) = some j ∧
      ((getField j (sChars "action") = some (JVal.str (sChars "navigate")) ∧
        ∃ v, getField j (sChars "target") = some v ∧
          ((lookupAssoc navRegistry (toPropKey v)).isSome = true ∨
           isProtoKey (toPropKey v) = true)) ∨
       (getField j (sChars "action") = some (JVal.str (sChars "click")) ∧
        ∃ v, getField j (sChars "element") = some v ∧
          (clickRegistry.any (fun x => decide (x = toPropKey v)) = true ∨
           isProtoKey (toPropKey v) = true)) ∨
       (getField j (sChars "action") = some (JVal.str (sChars "scroll")) ∧
        ∃ v, getField j (sChars "target") = some v ∧
          (lookupAssoc scrollRegistry (toPropKey v)).isSome = true) ∨
       (getField j (sChars "action") = some (JVal.str (sChars "open_modal")) ∧
        ∃ v, getField j (sChars "modal") = some v ∧
          (modalRegistry.any (fun x => decide (x = toPropKey v)) = true ∨
           isProtoFunctionKey (toPropKey v) = true))) :=
  c1_client_gate_allowlist (fun _ => false) (fun _ => false) (some c1wcmd) rfl

/-- Any burst of arrivals while a computation is in flight only attaches
waiters; the producer is not re-invoked. -/
lemma deduplicateArriveAll_busy (cs : List Nat) (w : List Nat) (i : Nat)
    (hw : w.isEmpty = false) :
    deduplicateArriveAll cs ⟨w, i⟩ = ⟨w ++ cs, i⟩ := by
  induction cs generalizing w with
  | nil => simp [deduplicateArriveAll]
  | cons c rest ih =>
    unfold deduplicateArriveAll
    rw [List.foldl_cons]
    rw [show deduplicateArrive ⟨w, i⟩ c = ⟨w ++ [c], i⟩ from by
      unfold deduplicateArrive; simp [hw]]
    have hw2 : (w ++ [c]).isEmpty = false := by
      cases w <;> simp
    have := ih (w ++ [c]) hw2
    unfold deduplicateArriveAll at this
    rw [this]
    simp

/-- C9: for any nonempty burst of callers arriving under one deduplication
key with no pre-existing cache entry, the producer runs exactly once, every
caller is attached to the one in-flight computation, settling delivers the
same outcome (success or failure alike) to every caller, and the in-flight
entry is removed on settling. -/
theorem c9_dedup_single_flight (callers : List Nat) (h : callers ≠ [])
    (outcome : DedupOutcome) :
    (deduplicateArriveAll callers ⟨[], 0⟩).invocations = 1 ∧
    (deduplicateArriveAll callers ⟨[], 0⟩).waiters = callers ∧
    (deduplicateSettle (deduplicateArriveAll callers ⟨[], 0⟩) outcome).1 =
      callers.map (fun c => (c, outcome)) ∧
    (deduplicateSettle (deduplicateArriveAll callers ⟨[], 0⟩) outcome).2.waiters = [] := by
  cases callers with
  | nil => exact absurd rfl h
  | cons c rest =>
    have h1 : deduplicateArriveAll (c :: rest) ⟨[], 0⟩ = ⟨c :: rest, 1⟩ := by
      unfold deduplicateArriveAll
      rw [List.foldl_cons]
      rw [show deduplicateArrive ⟨[], 0⟩ c = ⟨[c], 1⟩ from rfl]
      have := deduplicateArriveAll_busy rest [c] 1 rfl
      unfold deduplicateArriveAll at this
      rw [this]
      simp
    rw [h1]
    exact ⟨rfl, rfl, rfl, rfl⟩

/-- Witness for C9 at a concrete burst of three callers sharing one key,
whose shared computation fails: one producer run, and all three receive the
same failure. -/
theorem c9_dedup_single_flight_w :
    (deduplicateArriveAll [3, 4, 5] ⟨[], 0⟩).invocations = 1 ∧
    (deduplicateSettle (deduplicateArriveAll [3, 4, 5] ⟨[], 0⟩)
      (DedupOutcome.failure (sChars "Failed to get response from AI"))).1 =
      [3, 4, 5].map (fun c =>
        (c, DedupOutcome.failure (sChars "Failed to get response from AI"))) := by
  have h := c9_dedup_single_flight [3, 4, 5] (by decide)
    (DedupOutcome.failure (sChars "Failed to get response from AI"))
  exact ⟨h.1, h.2.2.1⟩
